import Mathlib

/-!
Verification of the retry/backoff, error-classification, reconciliation and
download-staging logic of the video-encoder scripts.

Source files embedded here:
* `dropbox_leftovers_producer.py` — `_sleep_with_backoff`, `_is_transient_error`,
  `_gdrive_execute_with_retry`, `get_path_if_exists_cached`,
  `find_file_in_folder_with_size`, `gdrive_has_same_file_strict`,
  `safe_download_to_file`
* `gdrive_design_compare.py` — same helpers (its `_is_transient_error` has one
  extra marker, `"incompleteread"`)
* `video_producer.py` — `_execute_gdrive_with_retry` (no error classification),
  `flat_name_from_dropbox_path`
* `encode_local_videos.py` — `flat_name_from_dropbox_path` (identical)
* `gdrive_encoded_downloader.py` — `download_file`

Machine conventions: attempt counters are `Nat`; an operation callback is a
function from the attempt index (1-based) to `Except ε α`; real-valued delays
are `ℚ`; Python strings are `List Char`.
-/

/-! ## Error values

A Python exception reaching `_is_transient_error` is abstracted by the
exception-class information the classifier actually inspects (`isinstance`
checks and the HTTP status attribute) together with its message `str(e)`. -/

/-- The `isinstance` cases distinguished by `_is_transient_error`:
`ConnectionResetError`, `ConnectionAbortedError`, `TimeoutError`,
`googleapiclient.errors.HttpError` (with its `resp.status`, absent when the
`getattr` chain yields `None`), and any other exception class. -/
inductive PyExcKind where
  | connResetError
  | connAbortedError
  | timeoutError
  | httpError (status : Option Int)
  | otherExc

/-- An exception value as seen by the classifier: its class information and
the text `str(e)`. -/
structure PyError where
  kind : PyExcKind
  msg : List Char

/-! ## String helpers (Python `str.lower` and the `in` substring test) -/

/-- Python `needle == haystack[:len(needle)]`: the needle starts the list. -/
def startsWithList : List Char → List Char → Bool
  | [], _ => true
  | _ :: _, [] => false
  | a :: as, b :: bs => a = b && startsWithList as bs

/-- Python `needle in haystack` for strings: the needle occurs contiguously. -/
def hasSubstring (needle : List Char) : List Char → Bool
  | [] => startsWithList needle []
  | b :: bs => startsWithList needle (b :: bs) || hasSubstring needle bs

/-- Python `s.lower()` (character-wise, as for the ASCII messages involved). -/
def lowerStr (s : List Char) : List Char := s.map Char.toLower

/-! ## `_is_transient_error` (dropbox_leftovers_producer.py, gdrive_design_compare.py) -/

/-- The `transient_markers` list of `_is_transient_error` in
`dropbox_leftovers_producer.py` (11 markers, no `"incompleteread"`). -/
def transientMarkersDropbox : List (List Char) :=
  ["connection reset".toList, "connection aborted".toList, "timed out".toList,
   "timeout".toList, "temporarily unavailable".toList, "remote host".toList,
   "10053".toList, "10054".toList, "tls".toList, "ssl".toList,
   "chunkedencodingerror".toList]

/-- The `transient_markers` list of `_is_transient_error` in
`gdrive_design_compare.py` (the 11 above plus `"incompleteread"`). -/
def transientMarkersGdc : List (List Char) :=
  transientMarkersDropbox ++ ["incompleteread".toList]

/-- `any(m in msg for m in transient_markers)` with `msg = str(e).lower()`. -/
def anyMarkerIn (markers : List (List Char)) (msg : List Char) : Bool :=
  markers.any (fun m => hasSubstring m (lowerStr msg))

/-- `status in (429, 500, 502, 503, 504)` where `status` may be `None`. -/
def statusRetryable : Option Int → Bool
  | some s => s = 429 || s = 500 || s = 502 || s = 503 || s = 504
  | none => false

/-- `_is_transient_error(e)`, with the marker list as a parameter (the two
source files differ only there): `True` for the three connection/timeout
classes; for `HttpError`, `True` when the status is in the retryable set,
otherwise fall through to the message check; every remaining case is the
case-insensitive marker-substring test on `str(e)`. -/
def isTransientError (markers : List (List Char)) (e : PyError) : Bool :=
  match e.kind with
  | .connResetError => true
  | .connAbortedError => true
  | .timeoutError => true
  | .httpError status =>
    if statusRetryable status then true else anyMarkerIn markers e.msg
  | .otherExc => anyMarkerIn markers e.msg

/-- `_is_transient_error` of `dropbox_leftovers_producer.py`. -/
def isTransientErrorDropbox : PyError → Bool :=
  isTransientError transientMarkersDropbox

/-- `_is_transient_error` of `gdrive_design_compare.py`. -/
def isTransientErrorGdc : PyError → Bool :=
  isTransientError transientMarkersGdc

/-! ## `_gdrive_execute_with_retry` (dropbox_leftovers_producer.py, gdrive_design_compare.py)

```python
for attempt in range(1, max_retries + 1):
    try:
        return request.execute()
    except Exception as e:
        if isinstance(e, KeyboardInterrupt):
            raise
        last_err = e
        print(...)
        if attempt >= max_retries or not _is_transient_error(e):
            raise
        _sleep_with_backoff(base_delay, attempt)
raise last_err  # for type checker
```

The callback is modelled as `op : Nat → Except ε α` giving each attempt's
outcome; `KeyboardInterrupt` is outside the modelled error type (it is
re-raised before the retry logic runs). The trailing `raise last_err` is
unreachable for `max_retries ≥ 1`, because the in-loop `raise` already fires
when `attempt >= max_retries`; the model covers `max_retries ≥ 1`. -/

/-- Outcome of one executor call: the returned/raised value, the number of
times the operation was invoked, and the number of backoff sleeps performed. -/
structure RetryTrace (α ε : Type) where
  result : Except ε α
  attempts : Nat
  sleeps : Nat

/-- The retry loop from `attempt` onward, with `sleeps` sleeps done so far. -/
def retryAux {α ε : Type} (isTr : ε → Bool) (op : Nat → Except ε α)
    (maxR attempt sleeps : Nat) : RetryTrace α ε :=
  match op attempt with
  | Except.ok v => ⟨Except.ok v, attempt, sleeps⟩
  | Except.error e =>
    if h : maxR ≤ attempt ∨ isTr e = false then ⟨Except.error e, attempt, sleeps⟩
    else retryAux isTr op maxR (attempt + 1) (sleeps + 1)
termination_by maxR - attempt
decreasing_by
  push_neg at h
  omega

/-- `_gdrive_execute_with_retry(request, max_retries=maxR, ...)`, classifying
errors with `isTr` (`_is_transient_error` in the scripts). -/
def gdriveExecuteWithRetry {α ε : Type} (isTr : ε → Bool) (op : Nat → Except ε α)
    (maxR : Nat) : RetryTrace α ε :=
  retryAux isTr op maxR 1 0

/-! ## `_execute_gdrive_with_retry` (video_producer.py)

```python
for attempt in range(1, GDRIVE_API_MAX_RETRIES + 1):
    try:
        return request.execute()
    except Exception as e:
        if isinstance(e, KeyboardInterrupt):
            raise
        print(...)
        if attempt >= GDRIVE_API_MAX_RETRIES:
            print(...)
            raise
        time.sleep(GDRIVE_API_RETRY_DELAY)
```

No error classification: every non-`KeyboardInterrupt` error is retried until
the attempt bound (`GDRIVE_API_MAX_RETRIES = 3` at module level; the bound is
a parameter here). -/

/-- The video_producer retry loop from `attempt` onward. -/
def vpRetryAux {α ε : Type} (op : Nat → Except ε α)
    (maxR attempt sleeps : Nat) : RetryTrace α ε :=
  match op attempt with
  | Except.ok v => ⟨Except.ok v, attempt, sleeps⟩
  | Except.error e =>
    if h : maxR ≤ attempt then ⟨Except.error e, attempt, sleeps⟩
    else vpRetryAux op maxR (attempt + 1) (sleeps + 1)
termination_by maxR - attempt
decreasing_by
  omega

/-- `_execute_gdrive_with_retry(request)` of `video_producer.py` with the
module-level retry bound as a parameter. -/
def executeGdriveWithRetryVP {α ε : Type} (op : Nat → Except ε α)
    (maxR : Nat) : RetryTrace α ε :=
  vpRetryAux op maxR 1 0

/-! ## Retry-loop lemmas -/

/-- If every attempt raises a transient error, the loop runs `attempt..maxR`
and ends raising attempt `maxR`'s error, sleeping once per retry. -/
theorem retryAux_all_fail {α ε : Type} (isTr : ε → Bool) (e : Nat → ε) (maxR : Nat)
    (htr : ∀ n, isTr (e n) = true) :
    ∀ d attempt sleeps, maxR - attempt = d → attempt ≤ maxR →
    retryAux (α := α) isTr (fun n => Except.error (e n)) maxR attempt sleeps
      = ⟨Except.error (e maxR), maxR, sleeps + (maxR - attempt)⟩ := by
  intro d
  induction d with
  | zero =>
    intro attempt sleeps hd hle
    have : attempt = maxR := by omega
    subst this
    rw [retryAux.eq_def]
    simp
  | succ d ih =>
    intro attempt sleeps hd hle
    rw [retryAux.eq_def]
    simp only
    rw [dif_neg (by simp [htr]; omega)]
    rw [ih (attempt + 1) (sleeps + 1) (by omega) (by omega)]
    congr 1
    omega

/-- The no-classification loop behaves the same on an always-failing callback. -/
theorem vpRetryAux_all_fail {α ε : Type} (e : Nat → ε) (maxR : Nat) :
    ∀ d attempt sleeps, maxR - attempt = d → attempt ≤ maxR →
    vpRetryAux (α := α) (fun n => Except.error (e n)) maxR attempt sleeps
      = ⟨Except.error (e maxR), maxR, sleeps + (maxR - attempt)⟩ := by
  intro d
  induction d with
  | zero =>
    intro attempt sleeps hd hle
    have : attempt = maxR := by omega
    subst this
    rw [vpRetryAux.eq_def]
    simp
  | succ d ih =>
    intro attempt sleeps hd hle
    rw [vpRetryAux.eq_def]
    simp only
    rw [dif_neg (by omega)]
    rw [ih (attempt + 1) (sleeps + 1) (by omega) (by omega)]
    congr 1
    omega

/-- If attempts `1..k-1` raise transient errors and attempt `k ≤ maxR`
succeeds, the loop started anywhere in `1..k` stops at `k` with the success
value, sleeping once per intervening retry. -/
theorem retryAux_ok_at {α ε : Type} (isTr : ε → Bool) (op : Nat → Except ε α)
    (maxR k : Nat) (v : α) (hok : op k = Except.ok v) (hkN : k ≤ maxR)
    (herr : ∀ n, 1 ≤ n → n < k → ∃ en, op n = Except.error en ∧ isTr en = true) :
    ∀ d attempt sleeps, k - attempt = d → 1 ≤ attempt → attempt ≤ k →
    retryAux isTr op maxR attempt sleeps = ⟨Except.ok v, k, sleeps + (k - attempt)⟩ := by
  intro d
  induction d with
  | zero =>
    intro attempt sleeps hd h1 hle
    have : attempt = k := by omega
    subst this
    rw [retryAux.eq_def]
    simp [hok]
  | succ d ih =>
    intro attempt sleeps hd h1 hle
    obtain ⟨en, hop, htr⟩ := herr attempt h1 (by omega)
    rw [retryAux.eq_def]
    simp only [hop]
    rw [dif_neg (by simp [htr]; omega)]
    rw [ih (attempt + 1) (sleeps + 1) (by omega) (by omega) (by omega)]
    congr 1
    omega

/-- Whatever the loop raises is exactly what the callback raised at the
attempt the loop stopped on: the error is re-raised unchanged. -/
theorem retryAux_error_origin {α ε : Type} (isTr : ε → Bool) (op : Nat → Except ε α)
    (maxR : Nat) :
    ∀ d attempt sleeps, maxR - attempt = d →
    ∀ e0, (retryAux isTr op maxR attempt sleeps).result = Except.error e0 →
      op (retryAux isTr op maxR attempt sleeps).attempts = Except.error e0 := by
  intro d
  induction d with
  | zero =>
    intro attempt sleeps hd e0
    rw [retryAux.eq_def]
    cases hop : op attempt with
    | ok v => intro h; simp at h
    | error e =>
      simp only
      rw [dif_pos (Or.inl (by omega))]
      intro h
      simp only at h ⊢
      rw [hop]
      exact congrArg Except.error (by injection h)
  | succ d ih =>
    intro attempt sleeps hd e0
    rw [retryAux.eq_def]
    cases hop : op attempt with
    | ok v => intro h; simp at h
    | error e =>
      simp only
      by_cases hc : maxR ≤ attempt ∨ isTr e = false
      · rw [dif_pos hc]
        intro h
        simp only at h ⊢
        rw [hop]
        exact congrArg Except.error (by injection h)
      · rw [dif_neg hc]
        exact ih (attempt + 1) (sleeps + 1) (by omega) e0

/-! ## Claims C1–C3: retry executor behaviour -/

/-- C1: for every bound `N ≥ 1` and every operation raising a
transient-classified error on each invocation, both retry executors
(`_gdrive_execute_with_retry` of dropbox_leftovers_producer.py /
gdrive_design_compare.py, and `_execute_gdrive_with_retry` of
video_producer.py) invoke the operation exactly `N` times and raise the
error of the last attempt; for `N = 1` the trace is one attempt, no sleep. -/
theorem C1_retry_exhausts_on_always_transient {α ε : Type} (isTr : ε → Bool)
    (e : Nat → ε) (N : Nat) (hN : 1 ≤ N) (htr : ∀ n, isTr (e n) = true) :
    gdriveExecuteWithRetry (α := α) isTr (fun n => Except.error (e n)) N
      = ⟨Except.error (e N), N, N - 1⟩ ∧
    executeGdriveWithRetryVP (α := α) (fun n => Except.error (e n)) N
      = ⟨Except.error (e N), N, N - 1⟩ := by
  constructor
  · rw [gdriveExecuteWithRetry,
      retryAux_all_fail isTr e N htr (N - 1) 1 0 (by omega) (by omega)]
    congr 1
    omega
  · rw [executeGdriveWithRetryVP,
      vpRetryAux_all_fail e N (N - 1) 1 0 (by omega) (by omega)]
    congr 1
    omega

/-- Witness for C1 at `N = 2` (and the `N = 1` special case). -/
theorem C1_retry_exhausts_on_always_transient_witness :
    ((1:Nat) ≤ 2 ∧
      gdriveExecuteWithRetry (α := Unit) (fun _ : Unit => true)
        (fun _ => Except.error ()) 2 = ⟨Except.error (), 2, 1⟩) ∧
    ((1:Nat) ≤ 1 ∧
      gdriveExecuteWithRetry (α := Unit) (fun _ : Unit => true)
        (fun _ => Except.error ()) 1 = ⟨Except.error (), 1, 0⟩) :=
  ⟨⟨by omega,
    (C1_retry_exhausts_on_always_transient (fun _ => true) (fun _ => ()) 2
      (by omega) (fun _ => rfl)).1⟩,
   ⟨by omega,
    (C1_retry_exhausts_on_always_transient (fun _ => true) (fun _ => ()) 1
      (by omega) (fun _ => rfl)).1⟩⟩

/-- C2: if attempts `1..k-1` raise transient-classified errors and attempt
`k` (with `1 ≤ k ≤ N`) returns `v`, then `_gdrive_execute_with_retry`
returns `v` after exactly `k` invocations (and `k - 1` backoff sleeps). -/
theorem C2_retry_returns_first_success {α ε : Type} (isTr : ε → Bool)
    (op : Nat → Except ε α) (N k : Nat) (v : α)
    (h1 : 1 ≤ k) (hkN : k ≤ N) (hok : op k = Except.ok v)
    (herr : ∀ n, 1 ≤ n → n < k → ∃ en, op n = Except.error en ∧ isTr en = true) :
    gdriveExecuteWithRetry isTr op N = ⟨Except.ok v, k, k - 1⟩ := by
  rw [gdriveExecuteWithRetry,
    retryAux_ok_at isTr op N k v hok hkN herr (k - 1) 1 0 (by omega) (by omega) (by omega)]
  congr 1
  omega

/-- Witness for C2: succeed at attempt 2 of 3 after one transient failure. -/
theorem C2_retry_returns_first_success_witness :
    (1:Nat) ≤ 2 ∧ (2:Nat) ≤ 3 ∧
    gdriveExecuteWithRetry (fun _ : Nat => true)
      (fun n => if n = 2 then Except.ok 42 else Except.error 0) 3
      = ⟨Except.ok 42, 2, 1⟩ :=
  ⟨by omega, by omega,
   C2_retry_returns_first_success (fun _ => true)
     (fun n => if n = 2 then Except.ok 42 else Except.error 0) 3 2 42
     (by omega) (by omega) (by simp)
     (fun n hn1 hn2 => ⟨0, by
       have : n = 1 := by omega
       subst this
       simp, rfl⟩)⟩

/-- A fatal (non-transient) HTTP 404 error with an empty message: used to
exhibit `video_producer`'s unclassified retry loop. -/
def fatal404 : PyError := ⟨.httpError (some 404), "".toList⟩

/-- The counterexample for C3: `fatal404` is classified non-transient, yet
`_execute_gdrive_with_retry` of `video_producer.py` (bound 3, its module
constant) invokes the always-failing operation 3 times with 2 sleeps —
not once with no sleep as the claim states for every cited executor. -/
theorem C3_counterexample_vp_retries_fatal :
    isTransientErrorDropbox fatal404 = false ∧
    executeGdriveWithRetryVP (α := Unit) (fun _ => Except.error fatal404) 3
      = ⟨Except.error fatal404, 3, 2⟩ := by
  constructor
  · decide
  · rw [executeGdriveWithRetryVP,
      vpRetryAux_all_fail (fun _ => fatal404) 3 2 1 0 (by omega) (by omega)]

/-- C3 amended: a fatal-classified error on attempt 1 makes the classifying
executor `_gdrive_execute_with_retry` stop after exactly one invocation,
with no backoff sleep, propagating that error, for every bound `N ≥ 1`;
`video_producer.py`'s `_execute_gdrive_with_retry`, which classifies
nothing, instead retries any always-failing operation to exhaustion
(`N` attempts, `N - 1` sleeps). -/
theorem C3_fatal_first_propagates_immediately {α ε : Type} (isTr : ε → Bool)
    (op : Nat → Except ε α) (N : Nat) (e0 : ε)
    (hN : 1 ≤ N) (h1 : op 1 = Except.error e0) (hfatal : isTr e0 = false) :
    gdriveExecuteWithRetry isTr op N = ⟨Except.error e0, 1, 0⟩ ∧
    ∀ e : Nat → ε, executeGdriveWithRetryVP (α := α) (fun n => Except.error (e n)) N
      = ⟨Except.error (e N), N, N - 1⟩ := by
  constructor
  · rw [gdriveExecuteWithRetry, retryAux.eq_def]
    simp only [h1]
    rw [dif_pos (Or.inr hfatal)]
  · intro e
    rw [executeGdriveWithRetryVP,
      vpRetryAux_all_fail e N (N - 1) 1 0 (by omega) (by omega)]
    congr 1
    omega

/-- Witness for C3's amended theorem at `N = 5` with the fatal 404 error. -/
theorem C3_fatal_first_propagates_immediately_witness :
    ((1:Nat) ≤ 5 ∧ isTransientErrorDropbox fatal404 = false) ∧
    gdriveExecuteWithRetry (α := Unit) isTransientErrorDropbox
      (fun _ => Except.error fatal404) 5 = ⟨Except.error fatal404, 1, 0⟩ :=
  ⟨⟨by omega, by decide⟩,
   (C3_fatal_first_propagates_immediately isTransientErrorDropbox
     (fun _ => Except.error fatal404) 5 fatal404 (by omega) rfl (by decide)).1⟩

/-! ## Claims C4–C5: the error classifier -/

/-- The counterexample for C4: the claimed 12-marker set contains
`"incompleteread"` (it is exactly the `gdrive_design_compare.py` list), but
`_is_transient_error` of `dropbox_leftovers_producer.py` lacks that marker:
on an error whose whole message is `"incompleteread"` it returns `False`. -/
theorem C4_counterexample_incompleteread :
    anyMarkerIn transientMarkersGdc "incompleteread".toList = true ∧
    isTransientErrorDropbox ⟨.otherExc, "incompleteread".toList⟩ = false := by
  constructor
  · decide
  · decide

/-- C4 amended: an error whose lowered message contains a marker of the
12-marker set is classified transient by `gdrive_design_compare.py`'s
classifier; `dropbox_leftovers_producer.py`'s classifier guarantees this
only for the 11 markers of its own list, which omits `"incompleteread"`. -/
theorem C4_marker_match_is_transient (e : PyError) :
    (anyMarkerIn transientMarkersGdc e.msg = true → isTransientErrorGdc e = true) ∧
    (anyMarkerIn transientMarkersDropbox e.msg = true →
      isTransientErrorDropbox e = true) := by
  constructor
  · intro h
    rw [isTransientErrorGdc, isTransientError]
    rcases e with ⟨kind, msg⟩
    cases kind with
    | httpError status =>
      by_cases hs : statusRetryable status = true
      · simp [hs]
      · simp only [Bool.not_eq_true] at hs
        simp [hs]
        exact h
    | connResetError => rfl
    | connAbortedError => rfl
    | timeoutError => rfl
    | otherExc => exact h
  · intro h
    rw [isTransientErrorDropbox, isTransientError]
    rcases e with ⟨kind, msg⟩
    cases kind with
    | httpError status =>
      by_cases hs : statusRetryable status = true
      · simp [hs]
      · simp only [Bool.not_eq_true] at hs
        simp [hs]
        exact h
    | connResetError => rfl
    | connAbortedError => rfl
    | timeoutError => rfl
    | otherExc => exact h

/-- Witness for C4 on a message containing the `"ssl"` marker. -/
theorem C4_marker_match_is_transient_witness :
    (anyMarkerIn transientMarkersGdc "SSL handshake failed".toList = true ∧
      isTransientErrorGdc ⟨.otherExc, "SSL handshake failed".toList⟩ = true) ∧
    (anyMarkerIn transientMarkersDropbox "SSL handshake failed".toList = true ∧
      isTransientErrorDropbox ⟨.otherExc, "SSL handshake failed".toList⟩ = true) :=
  ⟨⟨by decide,
    (C4_marker_match_is_transient ⟨.otherExc, "SSL handshake failed".toList⟩).1
      (by decide)⟩,
   ⟨by decide,
    (C4_marker_match_is_transient ⟨.otherExc, "SSL handshake failed".toList⟩).2
      (by decide)⟩⟩

/-- The counterexample for C5: an HTTP-style error with status 404 whose
message contains the marker `"ssl"` is classified transient by both
classifiers, although 404 is not in the retryable status set — the claimed
"fatal for status in {400, 401, 403, 404}" does not hold unconditionally,
because a non-retryable status falls through to the message check. -/
theorem C5_counterexample_status404_ssl :
    statusRetryable (some 404) = false ∧
    isTransientErrorDropbox ⟨.httpError (some 404), "ssl".toList⟩ = true := by
  constructor
  · decide
  · decide

/-- C5 amended: an error carrying an HTTP-style status is classified
transient iff the status is in {429, 500, 502, 503, 504} or the lowered
message contains a transient marker; in particular each status in
{400, 401, 403, 404} with a marker-free (here empty) message is fatal. -/
theorem C5_http_status_classification :
    (∀ (status : Option Int) (msg : List Char),
      isTransientErrorDropbox ⟨.httpError status, msg⟩
        = (statusRetryable status || anyMarkerIn transientMarkersDropbox msg) ∧
      isTransientErrorGdc ⟨.httpError status, msg⟩
        = (statusRetryable status || anyMarkerIn transientMarkersGdc msg)) ∧
    ((∀ (msg : List Char), isTransientErrorDropbox ⟨.httpError (some 429), msg⟩ = true) ∧
      isTransientErrorDropbox ⟨.httpError (some 400), "".toList⟩ = false ∧
      isTransientErrorDropbox ⟨.httpError (some 401), "".toList⟩ = false ∧
      isTransientErrorDropbox ⟨.httpError (some 403), "".toList⟩ = false ∧
      isTransientErrorDropbox ⟨.httpError (some 404), "".toList⟩ = false ∧
      isTransientErrorGdc ⟨.httpError (some 400), "".toList⟩ = false ∧
      isTransientErrorGdc ⟨.httpError (some 401), "".toList⟩ = false ∧
      isTransientErrorGdc ⟨.httpError (some 403), "".toList⟩ = false ∧
      isTransientErrorGdc ⟨.httpError (some 404), "".toList⟩ = false) := by
  constructor
  · intro status msg
    constructor
    · rw [isTransientErrorDropbox, isTransientError]
      by_cases hs : statusRetryable status = true
      · simp [hs]
      · simp only [Bool.not_eq_true] at hs
        simp [hs]
    · rw [isTransientErrorGdc, isTransientError]
      by_cases hs : statusRetryable status = true
      · simp [hs]
      · simp only [Bool.not_eq_true] at hs
        simp [hs]
  · exact ⟨fun msg => by rw [isTransientErrorDropbox, isTransientError]; simp [statusRetryable],
      by decide, by decide, by decide, by decide, by decide, by decide, by decide, by decide⟩

/-! ## Claim C6: `_sleep_with_backoff` (dropbox_leftovers_producer.py, gdrive_design_compare.py)

```python
def _sleep_with_backoff(base_delay, attempt, *, cap=60.0):
    expo = min(cap, base_delay * (2 ** max(0, attempt - 1)))
    jitter = random.uniform(0, 0.25 * expo)
    time.sleep(expo + jitter)
```

Delays are modelled over `ℚ`; the random jitter draw is a parameter
constrained to its interval `[0, 0.25 * expo]` in the theorems. Note that
`Nat` subtraction makes `2 ^ (attempt - 1)` agree with
`2 ** max(0, attempt - 1)` for every `attempt`. -/

/-- `expo = min(cap, base_delay * (2 ** max(0, attempt - 1)))`. -/
def expoBackoff (base_delay : ℚ) (attempt : Nat) (cap : ℚ) : ℚ :=
  min cap (base_delay * 2 ^ (attempt - 1))

/-- The duration passed to `time.sleep`: `expo + jitter`. -/
def backoffDelay (base_delay : ℚ) (attempt : Nat) (cap : ℚ) (jitter : ℚ) : ℚ :=
  expoBackoff base_delay attempt cap + jitter

/-- The counterexample for C6: with base delay 60, cap 60, attempt 2 and
jitter draw 0 (all within the claim's hypotheses), the slept delay is 60,
strictly below the claimed lower bound `base * 2^(n-1) = 120`: once the
exponential exceeds the cap, the lower bound is the cap, not the raw
exponential. -/
theorem C6_counterexample_cap_beats_lower_bound :
    (0:ℚ) < 60 ∧ (1:Nat) ≤ 2 ∧ (0:ℚ) ≤ 0 ∧
    (0:ℚ) ≤ 1/4 * expoBackoff 60 2 60 ∧
    backoffDelay 60 2 60 0 < 60 * 2 ^ (2 - 1) := by
  norm_num [backoffDelay, expoBackoff]

/-- C6 amended: for base `d > 0`, cap `c > 0`, attempt `n ≥ 1` and every
jitter draw in `[0, 0.25 * expo]`, the slept delay satisfies
`min(c, d*2^(n-1)) ≤ delay ≤ min(c, d*2^(n-1)) * 1.25` (the claimed lower
bound `d*2^(n-1)` must itself be capped), and for a fixed jitter fraction
`f ∈ [0, ∞)` of `expo` the delay is monotone non-decreasing in `n`. -/
theorem C6_backoff_delay_bounds (d c j : ℚ) (n : Nat)
    (hd : 0 < d) (hc : 0 < c) (hn : 1 ≤ n)
    (hj0 : 0 ≤ j) (hj : j ≤ 1/4 * expoBackoff d n c) :
    expoBackoff d n c ≤ backoffDelay d n c j ∧
    backoffDelay d n c j ≤ expoBackoff d n c * (5/4) ∧
    ∀ (m : Nat) (f : ℚ), n ≤ m → 0 ≤ f →
      backoffDelay d n c (f * expoBackoff d n c)
        ≤ backoffDelay d m c (f * expoBackoff d m c) := by
  refine ⟨?_, ?_, ?_⟩
  · rw [backoffDelay]
    linarith
  · rw [backoffDelay]
    linarith
  · intro m f hnm hf
    have hexpo : expoBackoff d n c ≤ expoBackoff d m c := by
      rw [expoBackoff, expoBackoff]
      have hpow : (2:ℚ) ^ (n - 1) ≤ 2 ^ (m - 1) :=
        pow_le_pow_right₀ (by norm_num) (by omega)
      exact min_le_min le_rfl (by nlinarith)
    rw [backoffDelay, backoffDelay]
    nlinarith [mul_le_mul_of_nonneg_left hexpo hf]

/-- Witness for C6's amended theorem at base 5, cap 60, attempt 2, jitter 2. -/
theorem C6_backoff_delay_bounds_witness :
    ((0:ℚ) < 5 ∧ (0:ℚ) < 60 ∧ (1:Nat) ≤ 2 ∧ (0:ℚ) ≤ 2 ∧
      (2:ℚ) ≤ 1/4 * expoBackoff 5 2 60) ∧
    (expoBackoff 5 2 60 ≤ backoffDelay 5 2 60 2 ∧
      backoffDelay 5 2 60 2 ≤ expoBackoff 5 2 60 * (5/4) ∧
      ∀ (m : Nat) (f : ℚ), 2 ≤ m → 0 ≤ f →
        backoffDelay 5 2 60 (f * expoBackoff 5 2 60)
          ≤ backoffDelay 5 m 60 (f * expoBackoff 5 m 60)) :=
  ⟨⟨by norm_num, by norm_num, by norm_num, by norm_num,
    by norm_num [expoBackoff]⟩,
   C6_backoff_delay_bounds 5 60 2 2 (by norm_num) (by norm_num) (by norm_num)
     (by norm_num) (by norm_num [expoBackoff])⟩

/-! ## `safe_download_to_file` (dropbox_leftovers_producer.py)

```python
out_path.parent.mkdir(parents=True, exist_ok=True)
tmp_path = out_path.with_suffix(out_path.suffix + ".part")
if tmp_path.exists():
    try:
        tmp_path.unlink()
    except Exception:
        pass
last_err = None
for attempt in range(1, retries + 1):
    try:
        dbx.files_download_to_file(download_path=str(tmp_path), path=dbx_path)
        tmp_path.replace(out_path)
        return
    except Exception as e:
        last_err = e
        print(...)
        if attempt >= retries or not _is_transient_error(e):
            break
        _sleep_with_backoff(base_delay_seconds, attempt)
raise RuntimeError(f"Dropbox download failed: ... (type(last_err): last_err)")
```

The local filesystem is reduced to the two paths the function touches: the
final target and its `.part` sibling. Each attempt either delivers the full
content (the SDK writes it into the temp path, then `replace` renames it
over the target) or raises, leaving some partial artifact in the temp path
(`partialLeft attempt`, possibly `none`). The initial `unlink` is modelled
as succeeding. The final `raise RuntimeError(...)` constructs a new
exception around the last attempt's error. -/

/-- Contents (if any) of the final target path and of its `.part` sibling. -/
structure FSState (β : Type) where
  target : Option β
  tmp : Option β

/-- What a wrapper raises: the caught exception itself (a bare `raise`), or
a fresh `RuntimeError` built around it. -/
inductive RaisedError (ε : Type) where
  | original (e : ε)
  | runtimeError (cause : ε)

/-- Outcome of `safe_download_to_file`: the return/raise, the resulting
filesystem state, and the attempt/sleep counts. -/
structure DownloadTrace (ε β : Type) where
  result : Except (RaisedError ε) Unit
  fs : FSState β
  attempts : Nat
  sleeps : Nat

/-- The download retry loop from `attempt` onward. -/
def safeDownloadAux {ε β : Type} (isTr : ε → Bool) (op : Nat → Except ε β)
    (partialLeft : Nat → Option β) (retries attempt sleeps : Nat)
    (fs : FSState β) : DownloadTrace ε β :=
  match op attempt with
  | Except.ok content => ⟨Except.ok (), ⟨some content, none⟩, attempt, sleeps⟩
  | Except.error e =>
    if h : retries ≤ attempt ∨ isTr e = false then
      ⟨Except.error (RaisedError.runtimeError e), ⟨fs.target, partialLeft attempt⟩,
        attempt, sleeps⟩
    else
      safeDownloadAux isTr op partialLeft retries (attempt + 1) (sleeps + 1)
        ⟨fs.target, partialLeft attempt⟩
termination_by retries - attempt
decreasing_by
  push_neg at h
  omega

/-- `safe_download_to_file(...)`: delete any lingering `.part`, then run the
retry loop from attempt 1. -/
def safeDownloadToFile {ε β : Type} (isTr : ε → Bool) (op : Nat → Except ε β)
    (partialLeft : Nat → Option β) (retries : Nat) (fs0 : FSState β) :
    DownloadTrace ε β :=
  safeDownloadAux isTr op partialLeft retries 1 0 ⟨fs0.target, none⟩

/-- Exhaustive description of the loop's outcome: an error outcome is a
`RuntimeError` around the error the callback raised on the final attempt and
leaves the target untouched; a success outcome installs some attempt's
downloaded content at the target and leaves no temp artifact. -/
theorem safeDownloadAux_spec {ε β : Type} (isTr : ε → Bool) (op : Nat → Except ε β)
    (partialLeft : Nat → Option β) (retries : Nat) :
    ∀ d attempt sleeps fs, retries - attempt = d →
    (∀ r, (safeDownloadAux isTr op partialLeft retries attempt sleeps fs).result
        = Except.error r →
      (safeDownloadAux isTr op partialLeft retries attempt sleeps fs).fs.target
        = fs.target ∧
      ∃ e0, r = RaisedError.runtimeError e0 ∧
        op (safeDownloadAux isTr op partialLeft retries attempt sleeps fs).attempts
          = Except.error e0) ∧
    ((safeDownloadAux isTr op partialLeft retries attempt sleeps fs).result
        = Except.ok () →
      ∃ content,
        op (safeDownloadAux isTr op partialLeft retries attempt sleeps fs).attempts
          = Except.ok content ∧
        (safeDownloadAux isTr op partialLeft retries attempt sleeps fs).fs
          = ⟨some content, none⟩) := by
  intro d
  induction d with
  | zero =>
    intro attempt sleeps fs hd
    rw [safeDownloadAux.eq_def]
    cases hop : op attempt with
    | ok content =>
      refine ⟨fun r hr => by simp at hr, fun _ => ⟨content, ?_, rfl⟩⟩
      simpa using hop
    | error e =>
      simp only
      rw [dif_pos (Or.inl (by omega))]
      refine ⟨fun r hr => ⟨rfl, e, ?_, by simpa using hop⟩, fun h => by simp at h⟩
      injection hr with hr
      exact hr.symm
  | succ d ih =>
    intro attempt sleeps fs hd
    rw [safeDownloadAux.eq_def]
    cases hop : op attempt with
    | ok content =>
      refine ⟨fun r hr => by simp at hr, fun _ => ⟨content, ?_, rfl⟩⟩
      simpa using hop
    | error e =>
      simp only
      by_cases hc : retries ≤ attempt ∨ isTr e = false
      · rw [dif_pos hc]
        refine ⟨fun r hr => ⟨rfl, e, ?_, by simpa using hop⟩, fun h => by simp at h⟩
        injection hr with hr
        exact hr.symm
      · rw [dif_neg hc]
        have := ih (attempt + 1) (sleeps + 1) ⟨fs.target, partialLeft attempt⟩ (by omega)
        exact this

/-! ## `download_file` (gdrive_encoded_downloader.py)

```python
target_path.parent.mkdir(parents=True, exist_ok=True)
if skip_existing and target_path.exists() and size_bytes is not None:
    if target_path.stat().st_size == size_bytes:
        print(...); return
tmp_path = target_path.with_suffix(target_path.suffix + ".part")
if tmp_path.exists():
    tmp_path.unlink()
request = service.files().get_media(...)
with io.FileIO(str(tmp_path), mode="wb") as fh:
    downloader = MediaIoBaseDownload(fh, request, chunksize=chunksize)
    done = False
    while not done:
        status, done = downloader.next_chunk()
        ...
tmp_path.replace(target_path)
```

Single attempt, no retry. `dl` is the streaming outcome (full content, or an
error with `partialLeft` bytes already written to the temp path); `size`
gives a stored content's byte size for the `stat().st_size` comparison. -/

/-- `skip_existing and target_path.exists() and size_bytes is not None and
stat().st_size == size_bytes`. -/
def skipExistingHit {β : Type} (size : β → Int) (target : Option β)
    (sizeBytes : Option Int) : Bool :=
  match target, sizeBytes with
  | some t, some n => size t = n
  | _, _ => false

/-- `download_file(...)` of `gdrive_encoded_downloader.py` (with
`skip_existing` folded into `skipExistingHit`). -/
def downloadFileGdrive {ε β : Type} (size : β → Int) (skipExisting : Bool)
    (sizeBytes : Option Int) (dl : Except ε β) (partialLeft : Option β)
    (fs0 : FSState β) : Except ε Unit × FSState β :=
  if skipExisting && skipExistingHit size fs0.target sizeBytes then
    (Except.ok (), fs0)
  else
    match dl with
    | Except.ok content => (Except.ok (), ⟨some content, none⟩)
    | Except.error e => (Except.error e, ⟨fs0.target, partialLeft⟩)

/-! ## Claim C7: the raised error is the original one -/

/-- The counterexample for C7: `safe_download_to_file`, cited by the claim as
one of the retrying remote-call wrappers, does not re-raise the original
error: after its single allowed attempt fails fatally (here the
non-transient `fatal404`), the caller observes a fresh `RuntimeError` built
around the original, not the original error object itself. -/
theorem C7_counterexample_runtime_wrapper :
    (safeDownloadToFile (β := Unit) isTransientErrorDropbox
        (fun _ => Except.error fatal404) (fun _ => none) 3
        ⟨none, none⟩).result
      = Except.error (RaisedError.runtimeError fatal404) ∧
    (safeDownloadToFile (β := Unit) isTransientErrorDropbox
        (fun _ => Except.error fatal404) (fun _ => none) 3
        ⟨none, none⟩).result
      ≠ Except.error (RaisedError.original fatal404) := by
  have h : (safeDownloadToFile (β := Unit) isTransientErrorDropbox
      (fun _ => Except.error fatal404) (fun _ => none) 3
      ⟨none, none⟩).result
      = Except.error (RaisedError.runtimeError fatal404) := by
    rw [safeDownloadToFile, safeDownloadAux.eq_def]
    simp only
    rw [dif_pos (Or.inr (by decide))]
  exact ⟨h, by rw [h]; simp⟩

/-- C7 amended: `_gdrive_execute_with_retry` re-raises, unchanged, the error
of the attempt it stopped on; `safe_download_to_file` instead raises a new
`RuntimeError` whose cause is the last attempt's original error. -/
theorem C7_final_error_is_original {α ε β : Type} (isTr : ε → Bool)
    (op : Nat → Except ε α) (dlOp : Nat → Except ε β)
    (partialLeft : Nat → Option β) (N retries : Nat) (fs0 : FSState β) :
    (∀ e0, (gdriveExecuteWithRetry isTr op N).result = Except.error e0 →
      op (gdriveExecuteWithRetry isTr op N).attempts = Except.error e0) ∧
    (∀ r, (safeDownloadToFile isTr dlOp partialLeft retries fs0).result
        = Except.error r →
      ∃ e0, r = RaisedError.runtimeError e0 ∧
        dlOp (safeDownloadToFile isTr dlOp partialLeft retries fs0).attempts
          = Except.error e0) := by
  constructor
  · intro e0 h
    exact retryAux_error_origin isTr op N (N - 1) 1 0 rfl e0 h
  · intro r hr
    exact (((safeDownloadAux_spec isTr dlOp partialLeft retries (retries - 1) 1 0
      ⟨fs0.target, none⟩ rfl).1) r hr).2

/-- Witness for C7: a single fatally-failing attempt in each wrapper. -/
theorem C7_final_error_is_original_witness :
    (fun _ : Nat => (Except.error fatal404 : Except PyError Unit))
      (gdriveExecuteWithRetry (α := Unit) isTransientErrorDropbox
        (fun _ => Except.error fatal404) 3).attempts = Except.error fatal404 ∧
    ∃ e0, (RaisedError.runtimeError fatal404 : RaisedError PyError)
        = RaisedError.runtimeError e0 ∧
      (fun _ : Nat => (Except.error fatal404 : Except PyError Unit))
        (safeDownloadToFile (β := Unit) isTransientErrorDropbox
          (fun _ => Except.error fatal404) (fun _ => none) 3
          ⟨none, none⟩).attempts = Except.error e0 := by
  constructor
  · exact (C7_final_error_is_original isTransientErrorDropbox
      (fun _ : Nat => (Except.error fatal404 : Except PyError Unit))
      (fun _ : Nat => (Except.error fatal404 : Except PyError Unit))
      (fun _ => none) 3 3 ⟨none, none⟩).1 fatal404
      (by
        rw [gdriveExecuteWithRetry, retryAux.eq_def]
        simp only
        rw [dif_pos (Or.inr (by decide))])
  · exact (C7_final_error_is_original (β := Unit) isTransientErrorDropbox
      (fun _ : Nat => (Except.error fatal404 : Except PyError Unit))
      (fun _ : Nat => (Except.error fatal404 : Except PyError Unit))
      (fun _ => none) 3 3 ⟨none, none⟩).2 (RaisedError.runtimeError fatal404)
      (by
        rw [safeDownloadToFile, safeDownloadAux.eq_def]
        simp only
        rw [dif_pos (Or.inr (by decide))])

/-! ## Claim C8: temp-file staging -/

/-- The counterexample for C8: `download_file` of
`gdrive_encoded_downloader.py`, invoked with `skip_existing` on and a target
whose stored size (5) matches `size_bytes`, returns before the temp-file
cleanup: the lingering `.part` artifact (of content 99) is not removed,
although the claim asserts every download invocation first removes it. -/
theorem C8_counterexample_skip_keeps_part :
    downloadFileGdrive (ε := Unit) (id : Int → Int) true (some 5)
        (Except.ok 5) none ⟨some 5, some 99⟩
      = (Except.ok (), ⟨some 5, some 99⟩) ∧
    (downloadFileGdrive (ε := Unit) (id : Int → Int) true (some 5)
        (Except.ok 5) none ⟨some 5, some 99⟩).2.tmp ≠ none := by
  constructor
  · rfl
  · intro h
    simp [downloadFileGdrive, skipExistingHit] at h

/-- C8 amended: `safe_download_to_file` removes any lingering `.part` first,
streams only into the `.part` path and installs the target only by the
rename after a successful transfer, so on any error the target is never
created or modified; `download_file` behaves the same on its transfer path,
but its skip-existing early return leaves a lingering `.part` file in
place. -/
theorem C8_temp_staging {ε β : Type} (isTr : ε → Bool) (op : Nat → Except ε β)
    (partialLeft : Nat → Option β) (retries : Nat) (fs0 : FSState β)
    (size : β → Int) (skipExisting : Bool) (sizeBytes : Option Int)
    (dl : Except ε β) (pl : Option β) :
    (∀ r, (safeDownloadToFile isTr op partialLeft retries fs0).result
        = Except.error r →
      (safeDownloadToFile isTr op partialLeft retries fs0).fs.target
        = fs0.target) ∧
    ((safeDownloadToFile isTr op partialLeft retries fs0).result = Except.ok () →
      ∃ content,
        op (safeDownloadToFile isTr op partialLeft retries fs0).attempts
          = Except.ok content ∧
        (safeDownloadToFile isTr op partialLeft retries fs0).fs
          = ⟨some content, none⟩) ∧
    ((skipExisting && skipExistingHit size fs0.target sizeBytes) = false →
      downloadFileGdrive size skipExisting sizeBytes dl pl fs0
        = match dl with
          | Except.ok content => (Except.ok (), ⟨some content, none⟩)
          | Except.error e => (Except.error e, ⟨fs0.target, pl⟩)) ∧
    ((skipExisting && skipExistingHit size fs0.target sizeBytes) = true →
      downloadFileGdrive size skipExisting sizeBytes dl pl fs0
        = (Except.ok (), fs0)) := by
  refine ⟨?_, ?_, ?_, ?_⟩
  · intro r hr
    exact ((safeDownloadAux_spec isTr op partialLeft retries (retries - 1) 1 0
      ⟨fs0.target, none⟩ rfl).1 r hr).1
  · intro h
    exact (safeDownloadAux_spec isTr op partialLeft retries (retries - 1) 1 0
      ⟨fs0.target, none⟩ rfl).2 h
  · intro h
    unfold downloadFileGdrive
    rw [if_neg (by rw [h]; simp)]
  · intro h
    unfold downloadFileGdrive
    rw [if_pos (by rw [h])]

/-- Witness for C8, on a transfer whose single allowed attempt fails, and a
non-skipped successful `download_file` transfer. -/
theorem C8_temp_staging_witness :
    ((safeDownloadToFile (β := Int) isTransientErrorDropbox
        (fun _ => Except.error fatal404) (fun _ => some 7) 3
        ⟨some 5, some 99⟩).fs.target = some 5) ∧
    ((false && skipExistingHit (id : Int → Int) (some (5:Int)) (some 99)) = false ∧
      downloadFileGdrive (ε := PyError) (id : Int → Int) false (some 99)
          (Except.ok 11) none ⟨some 5, some 99⟩
        = (Except.ok (), ⟨some 11, none⟩)) := by
  refine ⟨?_, by decide,
    (C8_temp_staging (β := Int) (ε := PyError) isTransientErrorDropbox
      (fun _ => Except.error fatal404) (fun _ => some 7) 3 ⟨some 5, some 99⟩
      id false (some 99) (Except.ok 11) none).2.2.1 (by decide)⟩
  refine (C8_temp_staging (β := Int) (ε := PyError) isTransientErrorDropbox
    (fun _ => Except.error fatal404) (fun _ => some 7) 3 ⟨some 5, some 99⟩
    id false (some 99) (Except.ok 11) none).1
    (RaisedError.runtimeError fatal404) ?_
  rw [safeDownloadToFile, safeDownloadAux.eq_def]
  simp only
  rw [dif_pos (Or.inr (by decide))]

/-! ## `gdrive_has_same_file_strict` (dropbox_leftovers_producer.py)

The Drive service is abstracted by the two queries the code issues:
`getFolder parent name` models `get_folder_if_exists` (the id of the first
non-trashed folder named `name` under `parent`, if any), and `listFiles
parent name` models the `files().list` call of
`find_file_in_folder_with_size` (the non-trashed entries named `name` under
`parent`, each with its optional `size` field). The folder cache is the
`dict` keyed by `(parent_id, name)`, modelled as an association list whose
most recent binding wins. -/

/-- One entry of a `files().list` answer: its id and its `size` field (the
field is absent for folders and some shortcut kinds; `int(f.get("size", 0)
or 0)` then yields 0). -/
structure DriveFile where
  id : String
  size : Option Int

/-- The folder cache: `(parent_id, name) ↦ Optional[str]`. -/
abbrev FolderCache := List ((String × String) × Option String)

/-- Python `dict` lookup on the association list (newest binding first). -/
def cacheLookup (cache : FolderCache) (k : String × String) :
    Option (Option String) :=
  match cache with
  | [] => none
  | (k', v) :: rest => if k' = k then some v else cacheLookup rest k

/-- `get_path_if_exists_cached(service, root_id, parts, ...)`: walk the
folder path from `current`, consulting the cache before each
`get_folder_if_exists` query and recording each answer; `None` as soon as a
segment is missing. Returns the resolved id (if any) and the updated
cache. -/
def getPathIfExistsCached (getFolder : String → String → Option String)
    (current : String) (parts : List String) (cache : FolderCache) :
    Option String × FolderCache :=
  match parts with
  | [] => (some current, cache)
  | name :: rest =>
    let step : Option String × FolderCache :=
      match cacheLookup cache (current, name) with
      | some v => (v, cache)
      | none =>
        (getFolder current name, ((current, name), getFolder current name) :: cache)
    match step.1 with
    | none => (none, step.2)
    | some fid => getPathIfExistsCached getFolder fid rest step.2

/-- `find_file_in_folder_with_size(service, parent_id, filename, ...)`:
`None` when the listing is empty, else the first entry's id with
`int(f.get("size", 0) or 0)`. -/
def findFileInFolderWithSize (listFiles : String → String → List DriveFile)
    (parentId filename : String) : Option (String × Int) :=
  match listFiles parentId filename with
  | [] => none
  | f :: _ => some (f.id, f.size.getD 0)

/-- `gdrive_has_same_file_strict(...)`: resolve the folder path, find the
file, and accept only a strictly positive size equal to the expected one;
every failure reports its reason. Returns `((ok, reason), cache')`. -/
def gdriveHasSameFileStrict (getFolder : String → String → Option String)
    (listFiles : String → String → List DriveFile) (rootId : String)
    (folderParts : List String) (filename : String)
    (expectedSizeBytes : Int) (cache : FolderCache) :
    (Bool × String) × FolderCache :=
  let res := getPathIfExistsCached getFolder rootId folderParts cache
  match res.1 with
  | none => ((false, "folder_missing"), res.2)
  | some parentId =>
    match findFileInFolderWithSize listFiles parentId filename with
    | none => ((false, "file_missing"), res.2)
    | some (_, gsize) =>
      if gsize ≤ 0 then ((false, "size_unknown"), res.2)
      else if gsize = expectedSizeBytes then ((true, "same_name_and_size"), res.2)
      else ((false, "size_mismatch(gdrive=" ++ toString gsize
        ++ ",dropbox=" ++ toString expectedSizeBytes ++ ")"), res.2)

/-- Cache-free folder-path resolution: the ground truth the cached walk is
compared against. -/
def resolvePath (getFolder : String → String → Option String) :
    String → List String → Option String
  | current, [] => some current
  | current, name :: rest =>
    match getFolder current name with
    | none => none
    | some fid => resolvePath getFolder fid rest

/-- A cache is consistent when every binding it holds is what the service
would answer. -/
def CacheConsistent (getFolder : String → String → Option String)
    (cache : FolderCache) : Prop :=
  ∀ p n v, cacheLookup cache (p, n) = some v → v = getFolder p n

/-- With a consistent cache, the cached walk resolves exactly as the
cache-free one, and the cache stays consistent. -/
theorem getPathIfExistsCached_eq (getFolder : String → String → Option String) :
    ∀ (parts : List String) (current : String) (cache : FolderCache),
    CacheConsistent getFolder cache →
    (getPathIfExistsCached getFolder current parts cache).1
        = resolvePath getFolder current parts ∧
    CacheConsistent getFolder (getPathIfExistsCached getFolder current parts cache).2 := by
  intro parts
  induction parts with
  | nil => intro current cache hc; exact ⟨rfl, hc⟩
  | cons name rest ih =>
    intro current cache hc
    rw [getPathIfExistsCached]
    cases hl : cacheLookup cache (current, name) with
    | some v =>
      have hv : v = getFolder current name := hc current name v hl
      simp only [hl]
      cases hgf : getFolder current name with
      | none =>
        subst hv
        simp only [hgf]
        exact ⟨by rw [resolvePath, hgf], hc⟩
      | some fid =>
        subst hv
        simp only [hgf]
        rw [resolvePath, hgf]
        exact ih fid cache hc
    | none =>
      simp only [hl]
      have hc' : CacheConsistent getFolder
          (((current, name), getFolder current name) :: cache) := by
        intro p n v hpn
        rw [cacheLookup] at hpn
        by_cases he : (current, name) = (p, n)
        · rw [if_pos he] at hpn
          obtain ⟨h1, h2⟩ := Prod.mk.injEq .. ▸ he
          subst h1; subst h2
          injection hpn with hpn
          exact hpn.symm
        · rw [if_neg he] at hpn
          exact hc p n v hpn
      cases hgf : getFolder current name with
      | none =>
        simp only [hgf]
        refine ⟨by rw [resolvePath, hgf], ?_⟩
        simpa [hgf] using hc'
      | some fid =>
        simp only [hgf]
        rw [resolvePath, hgf]
        have := ih fid (((current, name), getFolder current name) :: cache) hc'
        simpa [hgf] using this


/-! ## Claim C9: the strict reconciliation check -/

/-- C9: starting from a cache consistent with the service,
`gdrive_has_same_file_strict` answers `True` exactly when the folder path
fully resolves, the file is found there, and its reported size is strictly
positive and equal to the expected size; each failure mode reports the
reason naming the condition that failed, and success reports
`same_name_and_size`. -/
theorem C9_strict_reconciliation (getFolder : String → String → Option String)
    (listFiles : String → String → List DriveFile) (rootId filename : String)
    (folderParts : List String) (expected : Int) (cache : FolderCache)
    (hc : CacheConsistent getFolder cache) :
    ((gdriveHasSameFileStrict getFolder listFiles rootId folderParts filename
        expected cache).1.1 = true
      ↔ ∃ pid fid gsize,
          resolvePath getFolder rootId folderParts = some pid ∧
          findFileInFolderWithSize listFiles pid filename = some (fid, gsize) ∧
          0 < gsize ∧ gsize = expected) ∧
    (resolvePath getFolder rootId folderParts = none →
      (gdriveHasSameFileStrict getFolder listFiles rootId folderParts filename
        expected cache).1 = (false, "folder_missing")) ∧
    (∀ pid, resolvePath getFolder rootId folderParts = some pid →
      findFileInFolderWithSize listFiles pid filename = none →
      (gdriveHasSameFileStrict getFolder listFiles rootId folderParts filename
        expected cache).1 = (false, "file_missing")) ∧
    (∀ pid fid gsize, resolvePath getFolder rootId folderParts = some pid →
      findFileInFolderWithSize listFiles pid filename = some (fid, gsize) →
      gsize ≤ 0 →
      (gdriveHasSameFileStrict getFolder listFiles rootId folderParts filename
        expected cache).1 = (false, "size_unknown")) ∧
    (∀ pid fid gsize, resolvePath getFolder rootId folderParts = some pid →
      findFileInFolderWithSize listFiles pid filename = some (fid, gsize) →
      0 < gsize → gsize ≠ expected →
      (gdriveHasSameFileStrict getFolder listFiles rootId folderParts filename
        expected cache).1 = (false, "size_mismatch(gdrive=" ++ toString gsize
          ++ ",dropbox=" ++ toString expected ++ ")")) ∧
    ((gdriveHasSameFileStrict getFolder listFiles rootId folderParts filename
        expected cache).1.1 = true →
      (gdriveHasSameFileStrict getFolder listFiles rootId folderParts filename
        expected cache).1.2 = "same_name_and_size") := by
  have hres := (getPathIfExistsCached_eq getFolder folderParts rootId cache hc).1
  have hval : (gdriveHasSameFileStrict getFolder listFiles rootId folderParts
      filename expected cache).1
      = (match resolvePath getFolder rootId folderParts with
         | none => (false, "folder_missing")
         | some pid =>
           match findFileInFolderWithSize listFiles pid filename with
           | none => (false, "file_missing")
           | some (_, gsize) =>
             if gsize ≤ 0 then (false, "size_unknown")
             else if gsize = expected then (true, "same_name_and_size")
             else (false, "size_mismatch(gdrive=" ++ toString gsize
               ++ ",dropbox=" ++ toString expected ++ ")")) := by
    simp only [gdriveHasSameFileStrict, hres]
    cases hrp : resolvePath getFolder rootId folderParts with
    | none => simp only [hrp]
    | some pid =>
      simp only [hrp]
      cases hff : findFileInFolderWithSize listFiles pid filename with
      | none => simp only [hff]
      | some pr =>
        obtain ⟨fid, gsize⟩ := pr
        simp only [hff]
        split_ifs <;> rfl
  rw [show (gdriveHasSameFileStrict getFolder listFiles rootId folderParts
      filename expected cache).1.1
      = ((gdriveHasSameFileStrict getFolder listFiles rootId folderParts
        filename expected cache).1).1 from rfl] at *
  rw [hval]
  refine ⟨?_, ?_, ?_, ?_, ?_, ?_⟩
  · cases hrp : resolvePath getFolder rootId folderParts with
    | none =>
      simp only [hrp]
      constructor
      · intro h; exact absurd h (by simp)
      · rintro ⟨pid, fid, gsize, hp, _⟩; cases hp
    | some pid =>
      simp only [hrp]
      cases hff : findFileInFolderWithSize listFiles pid filename with
      | none =>
        simp only [hff]
        constructor
        · intro h; exact absurd h (by simp)
        · rintro ⟨pid', fid', gsize', hp, hf, _⟩
          injection hp with hp; subst hp
          rw [hff] at hf; cases hf
      | some pr =>
        obtain ⟨fid, gsize⟩ := pr
        simp only [hff]
        by_cases hz : gsize ≤ 0
        · rw [if_pos hz]
          constructor
          · intro h; exact absurd h (by simp)
          · rintro ⟨pid', fid', gsize', hp, hf, hpos, _⟩
            injection hp with hp; subst hp
            rw [hff] at hf
            injection hf with hf
            have h2 : gsize = gsize' := congrArg Prod.snd hf
            omega
        · rw [if_neg hz]
          by_cases heq : gsize = expected
          · rw [if_pos heq]
            constructor
            · intro _; exact ⟨pid, fid, gsize, rfl, hff, by omega, heq⟩
            · intro _; rfl
          · rw [if_neg heq]
            constructor
            · intro h; exact absurd h (by simp)
            · rintro ⟨pid', fid', gsize', hp, hf, hpos, he⟩
              injection hp with hp; subst hp
              rw [hff] at hf
              injection hf with hf
              have h2 : gsize = gsize' := congrArg Prod.snd hf
              subst he
              exact absurd h2 heq
  · intro hp; simp only [hp]
  · intro pid hp hf; simp only [hp, hf]
  · intro pid fid gsize hp hf hz
    simp only [hp, hf]
    rw [if_pos hz]
  · intro pid fid gsize hp hf hpos hne
    simp only [hp, hf]
    rw [if_neg (by omega), if_neg hne]
  · cases hrp : resolvePath getFolder rootId folderParts with
    | none => simp only [hrp]; intro h; exact absurd h (by simp)
    | some pid =>
      simp only [hrp]
      cases hff : findFileInFolderWithSize listFiles pid filename with
      | none => simp only [hff]; intro h; exact absurd h (by simp)
      | some pr =>
        obtain ⟨fid, gsize⟩ := pr
        simp only [hff]
        by_cases hz : gsize ≤ 0
        · rw [if_pos hz]; intro h; exact absurd h (by simp)
        · rw [if_neg hz]
          by_cases heq : gsize = expected
          · rw [if_pos heq]; intro _; rfl
          · rw [if_neg heq]; intro h; exact absurd h (by simp)

/-- A one-folder Drive for the C9 witness: folder `A` under `root`. -/
def demoGetFolder : String → String → Option String :=
  fun p n => if p = "root" ∧ n = "A" then some "idA" else none

/-- Its file listing: one 100-byte file `v.mp4` inside folder `idA`. -/
def demoListFiles : String → String → List DriveFile :=
  fun pid fn => if pid = "idA" ∧ fn = "v.mp4" then [⟨"fileX", some 100⟩] else []

/-- Witness for C9: the strict check accepts the matching 100-byte file. -/
theorem C9_strict_reconciliation_witness :
    CacheConsistent demoGetFolder [] ∧
    (gdriveHasSameFileStrict demoGetFolder demoListFiles "root" ["A"] "v.mp4"
      100 []).1.1 = true := by
  have hcons : CacheConsistent demoGetFolder [] := by
    intro p n v h
    simp [cacheLookup] at h
  refine ⟨hcons, ?_⟩
  exact (C9_strict_reconciliation demoGetFolder demoListFiles "root" "v.mp4"
    ["A"] 100 [] hcons).1.mpr
    ⟨"idA", "fileX", 100, by simp [resolvePath, demoGetFolder],
      by simp [findFileInFolderWithSize, demoListFiles], by omega, rfl⟩

/-! ## `flat_name_from_dropbox_path` (video_producer.py, encode_local_videos.py)

```python
def flat_name_from_dropbox_path(path_display: str) -> str:
    p = path_display.strip("/")
    parts = p.split("/")
    *dirs, filename = parts
    name_without_ext, _ = os.path.splitext(filename)
    dirs = [d for d in dirs if d != "최종편집영상"]
    all_parts = dirs + [name_without_ext]
    flat = "_".join(all_parts)
    return flat + ".mp4"
```

The string operations are embedded over `List Char`: `str.strip("/")`,
`str.split("/")`, `os.path.splitext` (which splits at the last dot unless
every preceding character of the name is a dot), and `"_".join`. -/

/-- Python `s.strip(c)` for a single strip character: drop `c` from both
ends. -/
def stripCharEnds (c : Char) (s : List Char) : List Char :=
  ((s.dropWhile (· = c)).reverse.dropWhile (· = c)).reverse

/-- Python `s.split(c)` for a one-character separator: `""` gives `[""]`,
and adjacent separators give empty segments. -/
def splitOnCharList (c : Char) : List Char → List (List Char)
  | [] => [[]]
  | x :: xs =>
    match splitOnCharList c xs with
    | [] => [[]]
    | y :: ys => if x = c then [] :: y :: ys else (x :: y) :: ys

/-- Index of the last `'.'` of a name, if any (`str.rfind('.')`). -/
def lastDotIndex : List Char → Option Nat
  | [] => none
  | ch :: rest =>
    match lastDotIndex rest with
    | some i => some (i + 1)
    | none => if ch = '.' then some 0 else none

/-- `os.path.splitext(name)[0]` for a name without path separators: cut at
the last dot, unless every character before it is itself a dot (then the
name is all extension-less, as for `".bashrc"`). -/
def splitextRoot (s : List Char) : List Char :=
  match lastDotIndex s with
  | none => s
  | some i => if (s.take i).all (· = '.') then s else s.take i

/-- `flat_name_from_dropbox_path(path_display)`. -/
def flatNameFromDropboxPath (pathDisplay : List Char) : List Char :=
  let p := stripCharEnds '/' pathDisplay
  let parts := splitOnCharList '/' p
  let dirs := (parts.dropLast).filter (fun d => d ≠ "최종편집영상".toList)
  let nameWithoutExt := splitextRoot (parts.getLastD [])
  (List.intercalate "_".toList (dirs ++ [nameWithoutExt])) ++ ".mp4".toList

/-! ### Split/join lemmas -/

/-- `split` never returns an empty list of segments. -/
theorem splitOnCharList_ne_nil (c : Char) (s : List Char) :
    splitOnCharList c s ≠ [] := by
  cases s with
  | nil => simp [splitOnCharList]
  | cons x xs =>
    rw [splitOnCharList]
    cases h : splitOnCharList c xs with
    | nil => simp
    | cons y ys =>
      by_cases hx : x = c
      · simp [hx]
      · simp [hx]

/-- Splitting a separator-free string yields that one segment. -/
theorem splitOnCharList_no_sep (c : Char) (s : List Char) (h : c ∉ s) :
    splitOnCharList c s = [s] := by
  induction s with
  | nil => rfl
  | cons x xs ih =>
    rw [splitOnCharList]
    have hx : x ≠ c := by intro he; exact h (he ▸ List.mem_cons_self x xs)
    rw [ih (fun hm => h (List.mem_cons_of_mem x hm))]
    simp [hx]

/-- Splitting peels off a leading separator-free segment. -/
theorem splitOnCharList_append (c : Char) (s t : List Char) (h : c ∉ s) :
    splitOnCharList c (s ++ c :: t) = s :: splitOnCharList c t := by
  induction s with
  | nil =>
    simp only [List.nil_append]
    rw [splitOnCharList]
    cases ht : splitOnCharList c t with
    | nil => exact absurd ht (splitOnCharList_ne_nil c t)
    | cons y ys => simp
  | cons x xs ih =>
    have hx : x ≠ c := by intro he; exact h (he ▸ List.mem_cons_self x xs)
    have ih' := ih (fun hm => h (List.mem_cons_of_mem x hm))
    simp only [List.cons_append]
    rw [splitOnCharList, ih']
    simp [hx]

/-- `split` inverts `join` on nonempty, separator-free segments. -/
theorem splitOnCharList_intercalate (c : Char) :
    ∀ (segs : List (List Char)), segs ≠ [] → (∀ s ∈ segs, c ∉ s) →
    splitOnCharList c (List.intercalate [c] segs) = segs := by
  intro segs
  induction segs with
  | nil => intro h; exact absurd rfl h
  | cons s rest ih =>
    intro _ hall
    cases rest with
    | nil =>
      have h1 : List.intercalate [c] [s] = s := by
        simp [List.intercalate, List.intersperse]
      rw [h1]
      exact splitOnCharList_no_sep c s (hall s (List.mem_cons_self s []))
    | cons s2 rest2 =>
      have h1 : List.intercalate [c] (s :: s2 :: rest2)
          = s ++ c :: List.intercalate [c] (s2 :: rest2) := by
        simp [List.intercalate, List.intersperse]
      rw [h1, splitOnCharList_append c s _ (hall s (List.mem_cons_self s _)),
        ih (by simp) (fun x hx => hall x (List.mem_cons_of_mem s hx))]

/-- `dropWhile` is the identity when the head is not stripped. -/
theorem dropWhile_eq_self_of_head_ne (c : Char) (l : List Char)
    (h : l.head? ≠ some c) : l.dropWhile (· = c) = l := by
  cases l with
  | nil => rfl
  | cons x t =>
    have hx : ¬ (x = c) := by
      intro he; exact h (by rw [he]; rfl)
    simp [List.dropWhile_cons, hx]

/-- `strip` is the identity on strings not starting or ending with the
strip character. -/
theorem stripCharEnds_eq_self (c : Char) (s : List Char)
    (h1 : s.head? ≠ some c) (h2 : s.getLast? ≠ some c) :
    stripCharEnds c s = s := by
  rw [stripCharEnds, dropWhile_eq_self_of_head_ne c s h1,
    dropWhile_eq_self_of_head_ne c s.reverse (by rwa [List.head?_reverse]),
    List.reverse_reverse]

/-- `strip` absorbs one leading strip character. -/
theorem stripCharEnds_cons_sep (c : Char) (s : List Char) :
    stripCharEnds c (c :: s) = stripCharEnds c s := by
  rw [stripCharEnds, stripCharEnds]
  congr 1
  rw [List.dropWhile_cons]
  simp

/-- The joined string starts with the first segment's first character. -/
theorem intercalate_head? (c : Char) (s : List Char) (rest : List (List Char))
    (hs : s ≠ []) :
    (List.intercalate [c] (s :: rest)).head? = s.head? := by
  cases rest with
  | nil =>
    have h1 : List.intercalate [c] [s] = s := by
      simp [List.intercalate, List.intersperse]
    rw [h1]
  | cons s2 rest2 =>
    have h1 : List.intercalate [c] (s :: s2 :: rest2)
        = s ++ c :: List.intercalate [c] (s2 :: rest2) := by
      simp [List.intercalate, List.intersperse]
    rw [h1, List.head?_append_of_ne_nil s hs]

/-- The joined string ends with the last segment's last character. -/
theorem intercalate_getLast? (c : Char) :
    ∀ (segs : List (List Char)) (s : List Char), s ≠ [] →
    (List.intercalate [c] (segs ++ [s])).getLast? = s.getLast? := by
  intro segs
  induction segs with
  | nil =>
    intro s hs
    have h1 : List.intercalate [c] [s] = s := by
      simp [List.intercalate, List.intersperse]
    rw [List.nil_append, h1]
  | cons d rest ih =>
    intro s hs
    have h1 : List.intercalate [c] (d :: (rest ++ [s]))
        = d ++ c :: List.intercalate [c] (rest ++ [s]) := by
      cases rest with
      | nil => simp [List.intercalate, List.intersperse]
      | cons r rs => simp [List.intercalate, List.intersperse]
    have ihs := ih s hs
    have hne : List.intercalate [c] (rest ++ [s]) ≠ [] := by
      cases rest with
      | nil => simpa [List.intercalate, List.intersperse] using hs
      | cons r rs =>
        rw [List.cons_append]
        cases h2 : rs ++ [s] with
        | nil => exact absurd h2 (by simp)
        | cons a l =>
          have h3 : List.intercalate [c] (r :: a :: l)
              = r ++ c :: List.intercalate [c] (a :: l) := by
            simp [List.intercalate, List.intersperse]
          rw [h3]
          simp
    rw [List.cons_append, h1, List.getLast?_append_cons]
    cases hI : List.intercalate [c] (rest ++ [s]) with
    | nil => exact absurd hI hne
    | cons a l =>
      rw [hI] at ihs
      rw [List.getLast?_cons_cons]
      exact ihs

/-- A string avoiding a character does not start with it. -/
theorem head?_ne_of_not_mem (c : Char) (l : List Char) (h : c ∉ l) :
    l.head? ≠ some c := by
  cases l with
  | nil => simp
  | cons x t =>
    intro he
    injection he with he
    exact h (he ▸ List.mem_cons_self x t)

/-- A string avoiding a character does not end with it. -/
theorem getLast?_ne_of_not_mem (c : Char) (l : List Char) (h : c ∉ l) :
    l.getLast? ≠ some c := by
  intro he
  exact h (List.mem_of_mem_getLast? (Option.mem_def.mpr he))

/-! ## Claim C10: the flat-name transformation -/

/-- C10: for a source path `/dir₁/…/dirₖ/filename` (each segment nonempty
and slash-free), `flat_name_from_dropbox_path` returns the underscore-join
of the directory segments — omitting every segment equal to
`"최종편집영상"` — followed by the filename without its extension, with
`".mp4"` appended; and for every input whatsoever the result ends in
`".mp4"`. -/
theorem C10_flat_name_from_dropbox_path (dirs : List (List Char))
    (filename : List Char) (hfn : filename ≠ []) (hfnc : '/' ∉ filename)
    (hdirs : ∀ d ∈ dirs, d ≠ [] ∧ '/' ∉ d) :
    flatNameFromDropboxPath
        ('/' :: List.intercalate "/".toList (dirs ++ [filename]))
      = (List.intercalate "_".toList
          ((dirs.filter (fun d => d ≠ "최종편집영상".toList))
            ++ [splitextRoot filename])) ++ ".mp4".toList ∧
    ∀ path : List Char, ".mp4".toList <:+ flatNameFromDropboxPath path := by
  have hsl : "/".toList = ['/'] := rfl
  constructor
  · rw [hsl]
    have hstrip : stripCharEnds '/'
        ('/' :: List.intercalate ['/'] (dirs ++ [filename]))
        = List.intercalate ['/'] (dirs ++ [filename]) := by
      rw [stripCharEnds_cons_sep]
      apply stripCharEnds_eq_self
      · cases dirs with
        | nil =>
          rw [List.nil_append, intercalate_head? '/' filename [] hfn]
          exact head?_ne_of_not_mem '/' filename hfnc
        | cons d rest =>
          rw [List.cons_append, intercalate_head? '/' d (rest ++ [filename])
            (hdirs d (List.mem_cons_self d rest)).1]
          exact head?_ne_of_not_mem '/' d (hdirs d (List.mem_cons_self d rest)).2
      · rw [intercalate_getLast? '/' dirs filename hfn]
        exact getLast?_ne_of_not_mem '/' filename hfnc
    have hsplit : splitOnCharList '/' (List.intercalate ['/'] (dirs ++ [filename]))
        = dirs ++ [filename] := by
      apply splitOnCharList_intercalate '/' (dirs ++ [filename]) (by simp)
      intro s hs
      rcases List.mem_append.mp hs with hin | hin
      · exact (hdirs s hin).2
      · rw [List.mem_singleton] at hin
        subst hin
        exact hfnc
    simp only [flatNameFromDropboxPath, hstrip, hsplit, List.dropLast_concat,
      List.getLastD_concat]
  · intro path
    simp only [flatNameFromDropboxPath]
    exact List.suffix_append _ _

/-- Witness for C10 on `"/a/최종편집영상/b/v.mov"`, which flattens to
`"a_b_v.mp4"` (the marker directory dropped, the extension replaced). -/
theorem C10_flat_name_from_dropbox_path_witness :
    ("v.mov".toList ≠ [] ∧ '/' ∉ "v.mov".toList ∧
      (∀ d ∈ ["a".toList, "최종편집영상".toList, "b".toList],
        d ≠ ([] : List Char) ∧ '/' ∉ d)) ∧
    flatNameFromDropboxPath
        ('/' :: List.intercalate "/".toList
          (["a".toList, "최종편집영상".toList, "b".toList] ++ ["v.mov".toList]))
      = (List.intercalate "_".toList
          ((["a".toList, "최종편집영상".toList, "b".toList].filter
              (fun d => d ≠ "최종편집영상".toList))
            ++ [splitextRoot "v.mov".toList])) ++ ".mp4".toList :=
  ⟨⟨by decide, by decide, by decide⟩,
   (C10_flat_name_from_dropbox_path
     ["a".toList, "최종편집영상".toList, "b".toList] "v.mov".toList
     (by decide) (by decide) (by decide)).1⟩
